import Mathlib

/-!
# Verification of the cw20-staking bonding/unbonding core

Shallow embedding of `src/contracts/cw20-staking/src/staking.rs`
(`bond`, `unbond`, `_withdraw_lock`, `_increase_bond_amount`,
`_decrease_bond_amount`, `_unbond`).

The embedding fixes one pool (one `asset_key`): every claim is about the
records of a single staking token, and the source threads the same
`asset_key` through every helper, so the per-pool state is modelled as one
record.  `Uint128` is modelled as `Nat` with explicit bound checks where
the source uses checked arithmetic (overflow/underflow aborts, matching
the panic/`?` behaviour of `Uint128`).  `Decimal` is modelled as `ℚ`.
Storage helpers that live in `src/state.rs` / `src/rewards.rs` (absent
from the sources) are modelled from the specification and carry a
`Modelled from the spec:` doc comment.

A failed execution commits nothing in CosmWasm: a contract call either
returns `Ok` and all storage writes commit, or returns `Err` and the host
reverts every write.  `execUnbond`/`execOp` below make this transactional
semantics explicit.
-/

deriving instance DecidableEq for Except

attribute [local semireducible] Rat.add Rat.mul Rat.sub

namespace CwStaking

abbrev Addr := String

/-- `LockInfo` from `src/msg.rs`: one time-locked unbonding entry.
Timestamps are seconds as `Nat`. -/
structure LockInfo where
  amount : Nat
  unlock_time : Nat
deriving DecidableEq, Repr

/-- An asset amount, as produced from a stored `AssetRaw` by `to_normal`
(the raw/normal distinction is address encoding only, identity here). -/
structure Asset where
  info : Addr
  amount : Nat
deriving DecidableEq, Repr

/-- `RewardInfo` from `src/state.rs`, exactly the fields the source
constructs: `native_token`, `index`, `bond_amount`, `pending_reward`,
`pending_withdraw`. -/
structure RewardInfo where
  native_token : Bool
  index : ℚ
  bond_amount : Nat
  pending_reward : ℚ
  pending_withdraw : List Asset
deriving DecidableEq, Repr

/-- The fields of `PoolInfo` read or written by `staking.rs`:
`staking_token`, `total_bond_amount`, `reward_index`. -/
structure PoolInfo where
  staking_token : Addr
  total_bond_amount : Nat
  reward_index : ℚ
deriving DecidableEq, Repr

/-- An outbound message of a response: either the cw20 `Transfer` built by
`_unbond`, or the transfer built from a `pending_withdraw` asset by
`Asset::into_msg`. -/
inductive Msg where
  | transfer (token : Addr) (recipient : Addr) (amount : Nat)
  | assetTransfer (a : Asset) (recipient : Addr)
deriving DecidableEq, Repr

/-- One event attribute `(key, value)`. -/
structure Attr where
  key : String
  value : String
deriving DecidableEq, Repr

/-- A CosmWasm `Response`: ordered messages and ordered attributes. -/
structure Response where
  messages : List Msg
  attributes : List Attr
deriving DecidableEq, Repr

/-- The block environment: height and time (seconds). -/
structure Env where
  height : Nat
  time : Nat
deriving DecidableEq, Repr

/-- The per-pool storage state.  Snapshot histories are `(height, value)`
lists in insertion order. -/
structure State where
  pool : PoolInfo
  rewards : List (Addr × RewardInfo)
  stakers : List Addr
  locks : List (Addr × List LockInfo)
  balSnap : List (Addr × List (Nat × Nat))
  totalSnap : List (Nat × Nat)
  unbonding_period : Option Nat
deriving DecidableEq, Repr

/-- First-occurrence association-list lookup (bucket `may_load`). -/
def lookupA {α : Type} : List (Addr × α) → Addr → Option α
  | [], _ => none
  | p :: rest, k => if p.1 = k then some p.2 else lookupA rest k

/-- First-occurrence association-list store (bucket `save`). -/
def setA {α : Type} : List (Addr × α) → Addr → α → List (Addr × α)
  | [], k, v => [(k, v)]
  | p :: rest, k, v => if p.1 = k then (k, v) :: rest else p :: setA rest k v

/-- Sequencing of fallible steps: the embedding of Rust's `?` operator
(an error short-circuits, a success feeds the continuation). -/
def andThen {α β : Type} (x : Except String α) (f : α → Except String β) :
    Except String β :=
  match x with
  | .error e => .error e
  | .ok v => f v

@[simp]
theorem andThen_ok {α β : Type} (v : α) (f : α → Except String β) :
    andThen (.ok v) f = f v := rfl

@[simp]
theorem andThen_error {α β : Type} (e : String) (f : α → Except String β) :
    andThen (.error e) f = .error e := rfl

/-- `Uint128::checked_add` / panicking `+`: fails past `2^128 - 1`. -/
def checked_add (a b : Nat) : Except String Nat :=
  if a + b < 2 ^ 128 then .ok (a + b) else .error "Overflow"

/-- `Uint128::checked_sub`: fails when the subtrahend is larger. -/
def checked_sub (a b : Nat) : Except String Nat :=
  if b ≤ a then .ok (a - b) else .error "Underflow"

/-- Modelled from the spec: `before_share_change` lives in
`src/rewards.rs`, which is not among the sources.  Per §4.1 it computes
`delta = (pool.reward_index − reward_index_snapshot) × bond_amount`, adds
`delta` to `pending_reward`, and advances the snapshot index to the pool
index; it has no error conditions. -/
def before_share_change (pool_index : ℚ) (r : RewardInfo) : RewardInfo :=
  { r with
    pending_reward := r.pending_reward + (pool_index - r.index) * (r.bond_amount : ℚ),
    index := pool_index }

/-- Modelled from the spec: `remove_and_accumulate_lock_info` lives in
`src/state.rs`, which is not among the sources.  Per §4.3 Step 1 / §4.4
it removes every lock entry with `unlock_time ≤ now` and returns the
remaining queue together with the summed removed amount. -/
def remove_and_accumulate_lock_info (locks : List LockInfo) (now : Nat) :
    List LockInfo × Nat :=
  (locks.filter (fun l => now < l.unlock_time),
   ((locks.filter (fun l => l.unlock_time ≤ now)).map LockInfo.amount).sum)

/-- Modelled from the spec: `insert_lock_info` lives in `src/state.rs`,
which is not among the sources.  Per §3 the lock entries of a
`(pool, account)` form a FIFO queue, so insertion appends. -/
def insert_lock_info (locks : List LockInfo) (l : LockInfo) : List LockInfo :=
  locks ++ [l]

/-- Latest recorded value of a snapshot history (0 when empty). -/
def snapCurrent (hist : List (Nat × Nat)) : Nat :=
  match hist.getLast? with
  | some p => p.2
  | none => 0

/-- Modelled from the spec: `STAKED_BALANCES` / `STAKED_TOTAL` are
`SnapshotMap`s declared in `src/state.rs`, which is not among the
sources.  Per §3 / §4.5 an update writes a new `(height, value)` entry,
heights strictly increasing per insertion, a tie overwriting the entry at
the same height. -/
def snapUpdate (hist : List (Nat × Nat)) (h : Nat) (v : Nat) :
    List (Nat × Nat) :=
  match hist.getLast? with
  | some p => if p.1 = h then hist.dropLast ++ [(h, v)] else hist ++ [(h, v)]
  | none => [(h, v)]

/-- The `RewardInfo` built by `unwrap_or_else` in `_increase_bond_amount`
when the account has no record yet. -/
def defaultRewardInfo : RewardInfo :=
  { native_token := false, index := 0, bond_amount := 0, pending_reward := 0,
    pending_withdraw := [] }

/-- The lock queue of one staker (empty when absent). -/
def lockOf (st : State) (staker : Addr) : List LockInfo :=
  (lookupA st.locks staker).getD []

/-- The balance-snapshot history of one staker (empty when absent). -/
def balSnapOf (st : State) (staker : Addr) : List (Nat × Nat) :=
  (lookupA st.balSnap staker).getD []

/-- `_increase_bond_amount` from `staking.rs`: load-or-default the reward
record, settle rewards, add `amount` to the pool total and the account
bond, update both snapshots, persist, and mark pool membership. -/
def _increase_bond_amount (st : State) (height : Nat) (staker : Addr)
    (amount : Nat) : Except String State :=
  let pool := st.pool
  let r0 := (lookupA st.rewards staker).getD defaultRewardInfo
  let r1 := before_share_change pool.reward_index r0
  andThen (checked_add pool.total_bond_amount amount) (fun total1 =>
  andThen (checked_add r1.bond_amount amount) (fun bond1 =>
  andThen (checked_add (snapCurrent (balSnapOf st staker)) amount) (fun bv =>
  andThen (checked_add (snapCurrent st.totalSnap) amount) (fun tv =>
  .ok { st with
    pool := { pool with total_bond_amount := total1 },
    rewards := setA st.rewards staker { r1 with bond_amount := bond1 },
    balSnap := setA st.balSnap staker
      (snapUpdate (balSnapOf st staker) height bv),
    totalSnap := snapUpdate st.totalSnap height tv,
    stakers :=
      if staker ∈ st.stakers then st.stakers else st.stakers ++ [staker] }))))

/-- The reward record after the `is_zero && is_zero` cleanup branch of
`_decrease_bond_amount`: `pending_withdraw` is cleared exactly when
`pending_reward` and `bond_amount` are both zero. -/
def afterCleanup (r : RewardInfo) : RewardInfo :=
  if r.pending_reward = 0 ∧ r.bond_amount = 0 then
    { r with pending_withdraw := [] }
  else r

/-- The `reward_assets` returned by `_decrease_bond_amount`: the held
`pending_withdraw` exactly when `pending_reward` and `bond_amount` are
both zero, otherwise none. -/
def cleanupAssets (r : RewardInfo) : List Asset :=
  if r.pending_reward = 0 ∧ r.bond_amount = 0 then r.pending_withdraw else []

/-- `_decrease_bond_amount` from `staking.rs`: load the reward record
(erroring when absent), reject `bond_amount < amount`, settle rewards,
subtract from bond and total, update both snapshots, release
`pending_withdraw` when the account is fully unwound, persist. -/
def _decrease_bond_amount (st : State) (height : Nat) (staker : Addr)
    (amount : Nat) : Except String (State × List Asset) :=
  match lookupA st.rewards staker with
  | none => .error "RewardInfo not found"
  | some r0 =>
    if r0.bond_amount < amount then
      .error "Cannot unbond more than bond amount"
    else
      let r1 := before_share_change st.pool.reward_index r0
      andThen (checked_sub r1.bond_amount amount) (fun bond1 =>
      andThen (checked_sub st.pool.total_bond_amount amount) (fun total1 =>
      andThen (checked_sub (snapCurrent (balSnapOf st staker)) amount) (fun bv =>
      andThen (checked_sub (snapCurrent st.totalSnap) amount) (fun tv =>
      let r2 := { r1 with bond_amount := bond1 }
      .ok ({ st with
        pool := { st.pool with total_bond_amount := total1 },
        rewards := setA st.rewards staker (afterCleanup r2),
        balSnap := setA st.balSnap staker
          (snapUpdate (balSnapOf st staker) height bv),
        totalSnap := snapUpdate st.totalSnap height tv },
        cleanupAssets r2)))))

/-- `_unbond` from `staking.rs`: a single cw20 `Transfer` of `amount` to
the staker plus the four "unbond" attributes. -/
def _unbond (staker_addr : Addr) (staking_token_addr : Addr) (amount : Nat) :
    Response :=
  { messages := [Msg.transfer staking_token_addr staker_addr amount],
    attributes :=
      [⟨"action", "unbond"⟩, ⟨"staker_addr", staker_addr⟩,
       ⟨"amount", toString amount⟩, ⟨"staking_token", staking_token_addr⟩] }

/-- `_withdraw_lock` from `staking.rs`: sweep matured lock entries; when
the accumulated amount is zero return an empty response, otherwise the
`_unbond` response for the accumulated amount. -/
def _withdraw_lock (st : State) (env : Env) (staker_addr : Addr)
    (staking_token : Addr) : State × Response :=
  let swept := remove_and_accumulate_lock_info (lockOf st staker_addr) env.time
  let st1 := { st with locks := setA st.locks staker_addr swept.1 }
  if swept.2 = 0 then (st1, { messages := [], attributes := [] })
  else (st1, _unbond staker_addr staking_token swept.2)

/-- `bond` from `staking.rs`. -/
def bond (st : State) (env : Env) (staker_addr : Addr) (staking_token : Addr)
    (amount : Nat) : Except String (State × Response) :=
  andThen (_increase_bond_amount st env.height staker_addr amount) (fun st1 =>
    .ok (st1,
      { messages := [],
        attributes :=
          [⟨"action", "bond"⟩, ⟨"staker_addr", staker_addr⟩,
           ⟨"staking_token", staking_token⟩, ⟨"amount", toString amount⟩] }))

/-- The five attributes emitted when an unbond is queued behind an
unbonding period. -/
def unbondingAttrs (staker_addr : Addr) (staking_token : Addr) (amount : Nat)
    (unlock_time : Nat) : List Attr :=
  [⟨"action", "unbonding"⟩, ⟨"staker_addr", staker_addr⟩,
   ⟨"amount", toString amount⟩, ⟨"staking_token", staking_token⟩,
   ⟨"unlock_time", toString unlock_time⟩]

/-- `unbond` from `staking.rs`: sweep matured locks, then for a nonzero
`amount` decrease the bond, release any returned `pending_withdraw`
assets, and either enqueue a lock entry (when an unbonding period is
configured, `if let Ok(period)`) or transfer immediately; the collected
messages and finally the sweep attributes are appended to the response. -/
def unbond (st : State) (env : Env) (staker_addr : Addr) (staking_token : Addr)
    (amount : Nat) : Except String (State × Response) :=
  let w := _withdraw_lock st env staker_addr staking_token
  let messages0 := w.2.messages
  let withdraw_attrs := w.2.attributes
  if amount = 0 then
    .ok (w.1, { messages := messages0, attributes := withdraw_attrs })
  else
    andThen (_decrease_bond_amount w.1 env.height staker_addr amount) (fun q =>
      let st2 := q.1
      let reward_assets := q.2
      let messages1 := messages0 ++
        reward_assets.map (fun ra => Msg.assetTransfer ra staker_addr)
      match st2.unbonding_period with
      | some period =>
        let unlock_time := env.time + period
        .ok ({ st2 with
            locks := setA st2.locks staker_addr
              (insert_lock_info (lockOf st2 staker_addr)
                { amount := amount, unlock_time := unlock_time }) },
          { messages := messages1,
            attributes :=
              unbondingAttrs staker_addr staking_token amount unlock_time ++
                withdraw_attrs })
      | none =>
        let ur := _unbond staker_addr staking_token amount
        .ok (st2,
          { messages := messages1 ++ ur.messages,
            attributes := ur.attributes ++ withdraw_attrs }))

/-- Transactional commit: on success the new state, on error the host
reverts every write, leaving the pre-call state. -/
def commit (st : State) (r : Except String (State × Response)) : State :=
  match r with
  | .ok p => p.1
  | .error _ => st

@[simp]
theorem commit_ok (st : State) (p : State × Response) :
    commit st (.ok p) = p.1 := rfl

@[simp]
theorem commit_error (st : State) (e : String) :
    commit st (.error e) = st := rfl

/-- Transactional commit of `unbond`: on success the new state, on error
the host reverts every write, leaving the pre-call state. -/
def execUnbond (st : State) (env : Env) (staker_addr : Addr)
    (staking_token : Addr) (amount : Nat) : State :=
  commit st (unbond st env staker_addr staking_token amount)

/-- One operation of a Bond/Unbond sequence. -/
inductive Op where
  | opBond (staker : Addr) (token : Addr) (amount : Nat)
  | opUnbond (staker : Addr) (token : Addr) (amount : Nat)
deriving DecidableEq, Repr

/-- Dispatch one operation. -/
def applyOp (st : State) (env : Env) : Op → Except String (State × Response)
  | .opBond staker token amount => bond st env staker token amount
  | .opUnbond staker token amount => unbond st env staker token amount

/-- Transactional commit of one operation (errors revert). -/
def execOp (st : State) (eo : Env × Op) : State :=
  commit st (applyOp st eo.1 eo.2)

/-- Run a sequence of operations under transactional commit. -/
def runOps (st : State) (ops : List (Env × Op)) : State :=
  ops.foldl execOp st

/-- Sum of all accounts' bonded amounts in the pool. -/
def bondSum (rs : List (Addr × RewardInfo)) : Nat :=
  (rs.map (fun p => p.2.bond_amount)).sum

/-- The conservation invariant: the pool total equals the sum of the
accounts' bonds. -/
def Consistent (st : State) : Prop :=
  st.pool.total_bond_amount = bondSum st.rewards

/-- The account's stored pending reward (0 when no record). -/
def pendingOf (st : State) (staker : Addr) : ℚ :=
  ((lookupA st.rewards staker).map RewardInfo.pending_reward).getD 0

/-- The account's stored bonded amount (0 when no record). -/
def bondOf (st : State) (staker : Addr) : Nat :=
  ((lookupA st.rewards staker).map RewardInfo.bond_amount).getD 0

/-- The account's stored pending withdrawals (empty when no record). -/
def pwOf (st : State) (staker : Addr) : List Asset :=
  ((lookupA st.rewards staker).map RewardInfo.pending_withdraw).getD []

/-- The response of a successful `unbond` (empty response on error). -/
def unbondResult (st : State) (env : Env) (staker_addr : Addr)
    (staking_token : Addr) (amount : Nat) : Response :=
  match unbond st env staker_addr staking_token amount with
  | .ok p => p.2
  | .error _ => { messages := [], attributes := [] }

/-- The reward record right after settlement and the bond decrease, the
value whose `pending_reward`/`bond_amount` zero test drives the
`pending_withdraw` cleanup. -/
def afterDecrease (pool_index : ℚ) (r0 : RewardInfo) (amount : Nat) :
    RewardInfo :=
  { before_share_change pool_index r0 with
    bond_amount := (before_share_change pool_index r0).bond_amount - amount }

/-! ## Projection and helper lemmas -/

@[simp]
theorem before_share_change_bond_amount (i : ℚ) (r : RewardInfo) :
    (before_share_change i r).bond_amount = r.bond_amount := rfl

@[simp]
theorem before_share_change_pending_withdraw (i : ℚ) (r : RewardInfo) :
    (before_share_change i r).pending_withdraw = r.pending_withdraw := rfl

@[simp]
theorem before_share_change_pending_reward (i : ℚ) (r : RewardInfo) :
    (before_share_change i r).pending_reward
      = r.pending_reward + (i - r.index) * (r.bond_amount : ℚ) := rfl

@[simp]
theorem afterDecrease_bond_amount (i : ℚ) (r : RewardInfo) (amount : Nat) :
    (afterDecrease i r amount).bond_amount = r.bond_amount - amount := rfl

@[simp]
theorem afterDecrease_pending_withdraw (i : ℚ) (r : RewardInfo) (amount : Nat) :
    (afterDecrease i r amount).pending_withdraw = r.pending_withdraw := rfl

@[simp]
theorem afterDecrease_pending_reward (i : ℚ) (r : RewardInfo) (amount : Nat) :
    (afterDecrease i r amount).pending_reward
      = r.pending_reward + (i - r.index) * (r.bond_amount : ℚ) := rfl

theorem afterCleanup_of_pos {r : RewardInfo}
    (h : r.pending_reward = 0 ∧ r.bond_amount = 0) :
    afterCleanup r = { r with pending_withdraw := [] } := by
  unfold afterCleanup; rw [if_pos h]

theorem afterCleanup_of_neg {r : RewardInfo}
    (h : ¬(r.pending_reward = 0 ∧ r.bond_amount = 0)) :
    afterCleanup r = r := by
  unfold afterCleanup; rw [if_neg h]

theorem cleanupAssets_of_pos {r : RewardInfo}
    (h : r.pending_reward = 0 ∧ r.bond_amount = 0) :
    cleanupAssets r = r.pending_withdraw := by
  unfold cleanupAssets; rw [if_pos h]

theorem cleanupAssets_of_neg {r : RewardInfo}
    (h : ¬(r.pending_reward = 0 ∧ r.bond_amount = 0)) :
    cleanupAssets r = [] := by
  unfold cleanupAssets; rw [if_neg h]

@[simp]
theorem afterCleanup_bond_amount (r : RewardInfo) :
    (afterCleanup r).bond_amount = r.bond_amount := by
  unfold afterCleanup; split <;> rfl

@[simp]
theorem afterCleanup_pending_reward (r : RewardInfo) :
    (afterCleanup r).pending_reward = r.pending_reward := by
  unfold afterCleanup; split <;> rfl

@[simp]
theorem lookupA_setA_self {α : Type} (l : List (Addr × α)) (k : Addr) (v : α) :
    lookupA (setA l k v) k = some v := by
  induction l with
  | nil => simp [setA, lookupA]
  | cons p rest ih =>
    by_cases h : p.1 = k
    · simp [setA, lookupA, h]
    · simp [setA, lookupA, h, ih]

theorem lookupA_setA_ne {α : Type} (l : List (Addr × α)) (k k' : Addr) (v : α)
    (h : k' ≠ k) : lookupA (setA l k v) k' = lookupA l k' := by
  have hk : ¬(k = k') := fun hh => h hh.symm
  induction l with
  | nil => simp [setA, lookupA, hk]
  | cons p rest ih =>
    obtain ⟨a, b⟩ := p
    by_cases hp : a = k
    · subst hp
      simp [setA, lookupA, hk]
    · simp [setA, lookupA, hp, ih]

theorem bondSum_setA (rs : List (Addr × RewardInfo)) (k : Addr)
    (v : RewardInfo) :
    bondSum (setA rs k v) + ((lookupA rs k).map RewardInfo.bond_amount).getD 0
      = bondSum rs + v.bond_amount := by
  induction rs with
  | nil => simp [setA, lookupA, bondSum]
  | cons p rest ih =>
    by_cases h : p.1 = k
    · simp [setA, lookupA, h, bondSum]
      omega
    · simp only [setA, lookupA, h, if_neg h, if_false, bondSum, List.map_cons,
        List.sum_cons] at ih
      simp only [setA, lookupA, h, if_neg h, if_false, bondSum, List.map_cons,
        List.sum_cons]
      omega

theorem lookupA_le_bondSum (rs : List (Addr × RewardInfo)) (k : Addr)
    (r : RewardInfo) (h : lookupA rs k = some r) :
    r.bond_amount ≤ bondSum rs := by
  induction rs with
  | nil => simp [lookupA] at h
  | cons p rest ih =>
    by_cases hp : p.1 = k
    · simp only [lookupA, if_pos hp] at h
      cases h
      simp [bondSum]
    · simp only [lookupA, if_neg hp] at h
      have := ih h
      simp only [bondSum] at this
      simp only [bondSum, List.map_cons, List.sum_cons]
      omega

@[simp]
theorem snapCurrent_snapUpdate (hist : List (Nat × Nat)) (h v : Nat) :
    snapCurrent (snapUpdate hist h v) = v := by
  unfold snapCurrent snapUpdate
  cases hl : hist.getLast? with
  | none => simp
  | some p =>
    by_cases hh : p.1 = h <;> simp [hh, List.getLast?_concat]

@[simp]
theorem withdraw_fst (st : State) (env : Env) (staker token : Addr) :
    (_withdraw_lock st env staker token).1 =
      { st with locks := (setA st.locks staker
          ((lockOf st staker).filter (fun l => env.time < l.unlock_time))) } := by
  simp only [_withdraw_lock, remove_and_accumulate_lock_info]
  split <;> rfl

theorem withdraw_snd (st : State) (env : Env) (staker token : Addr) :
    (_withdraw_lock st env staker token).2 =
      (if (remove_and_accumulate_lock_info (lockOf st staker) env.time).2 = 0
       then { messages := [], attributes := [] }
       else _unbond staker token
         (remove_and_accumulate_lock_info (lockOf st staker) env.time).2) := by
  unfold _withdraw_lock
  split <;> simp_all

/-- The reward record stored by a successful `_increase_bond_amount`. -/
def afterIncrease (pool_index : ℚ) (r0 : RewardInfo) (amount : Nat) :
    RewardInfo :=
  { before_share_change pool_index r0 with
    bond_amount := (before_share_change pool_index r0).bond_amount + amount }

@[simp]
theorem afterIncrease_bond_amount (i : ℚ) (r : RewardInfo) (amount : Nat) :
    (afterIncrease i r amount).bond_amount = r.bond_amount + amount := rfl

@[simp]
theorem afterIncrease_pending_reward (i : ℚ) (r : RewardInfo) (amount : Nat) :
    (afterIncrease i r amount).pending_reward
      = r.pending_reward + (i - r.index) * (r.bond_amount : ℚ) := rfl

theorem checked_add_ok {a b v : Nat} (h : checked_add a b = .ok v) :
    a + b < 2 ^ 128 ∧ v = a + b := by
  unfold checked_add at h
  split at h
  · exact ⟨by assumption, (Except.ok.injEq _ _ ▸ h).symm⟩
  · exact Except.noConfusion h

theorem checked_sub_ok {a b v : Nat} (h : checked_sub a b = .ok v) :
    b ≤ a ∧ v = a - b := by
  unfold checked_sub at h
  split at h
  · exact ⟨by assumption, (Except.ok.injEq _ _ ▸ h).symm⟩
  · exact Except.noConfusion h

theorem increase_ok_spec {st : State} {hh : Nat} {staker : Addr}
    {amount : Nat} {st' : State}
    (hd : _increase_bond_amount st hh staker amount = .ok st') :
    st' = { st with
      pool := { st.pool with
        total_bond_amount := st.pool.total_bond_amount + amount },
      rewards := (setA st.rewards staker
        (afterIncrease st.pool.reward_index
          ((lookupA st.rewards staker).getD defaultRewardInfo) amount)),
      balSnap := (setA st.balSnap staker
        (snapUpdate (balSnapOf st staker) hh
          (snapCurrent (balSnapOf st staker) + amount))),
      totalSnap := snapUpdate st.totalSnap hh (snapCurrent st.totalSnap + amount),
      stakers := (if staker ∈ st.stakers then st.stakers
                  else st.stakers ++ [staker]) } := by
  cases hc1 : checked_add st.pool.total_bond_amount amount with
  | error e =>
    simp only [_increase_bond_amount, hc1, andThen_error] at hd
    exact Except.noConfusion hd
  | ok total1 =>
    cases hc2 : checked_add
        ((lookupA st.rewards staker).getD defaultRewardInfo).bond_amount
        amount with
    | error e =>
      simp only [_increase_bond_amount, hc1, hc2, andThen_ok, andThen_error,
        before_share_change_bond_amount] at hd
      exact Except.noConfusion hd
    | ok bond1 =>
      cases hc3 : checked_add (snapCurrent (balSnapOf st staker)) amount with
      | error e =>
        simp only [_increase_bond_amount, hc1, hc2, hc3, andThen_ok,
          andThen_error, before_share_change_bond_amount] at hd
        exact Except.noConfusion hd
      | ok bv =>
        cases hc4 : checked_add (snapCurrent st.totalSnap) amount with
        | error e =>
          simp only [_increase_bond_amount, hc1, hc2, hc3, hc4, andThen_ok,
            andThen_error, before_share_change_bond_amount] at hd
          exact Except.noConfusion hd
        | ok tv =>
          simp only [_increase_bond_amount, hc1, hc2, hc3, hc4, andThen_ok,
            before_share_change_bond_amount, Except.ok.injEq] at hd
          obtain ⟨hb1, he1⟩ := checked_add_ok hc1
          obtain ⟨hb2, he2⟩ := checked_add_ok hc2
          obtain ⟨hb3, he3⟩ := checked_add_ok hc3
          obtain ⟨hb4, he4⟩ := checked_add_ok hc4
          subst he1 he2 he3 he4
          exact hd.symm

theorem decrease_ok_spec {st : State} {hh : Nat} {staker : Addr}
    {amount : Nat} {st' : State} {assets : List Asset}
    (hd : _decrease_bond_amount st hh staker amount = .ok (st', assets)) :
    ∃ r0, lookupA st.rewards staker = some r0 ∧
      amount ≤ r0.bond_amount ∧
      amount ≤ st.pool.total_bond_amount ∧
      amount ≤ snapCurrent (balSnapOf st staker) ∧
      amount ≤ snapCurrent st.totalSnap ∧
      st' = { st with
        pool := { st.pool with
          total_bond_amount := st.pool.total_bond_amount - amount },
        rewards := (setA st.rewards staker
          (afterCleanup (afterDecrease st.pool.reward_index r0 amount))),
        balSnap := (setA st.balSnap staker
          (snapUpdate (balSnapOf st staker) hh
            (snapCurrent (balSnapOf st staker) - amount))),
        totalSnap := snapUpdate st.totalSnap hh
          (snapCurrent st.totalSnap - amount) } ∧
      assets = cleanupAssets (afterDecrease st.pool.reward_index r0 amount) := by
  cases hl : lookupA st.rewards staker with
  | none =>
    simp only [_decrease_bond_amount, hl] at hd
    exact Except.noConfusion hd
  | some r0 =>
    by_cases hb : r0.bond_amount < amount
    · simp only [_decrease_bond_amount, hl, if_pos hb] at hd
      exact Except.noConfusion hd
    · cases hc1 : checked_sub r0.bond_amount amount with
      | error e =>
        simp only [_decrease_bond_amount, hl, if_neg hb, hc1, andThen_error,
          before_share_change_bond_amount] at hd
        exact Except.noConfusion hd
      | ok bond1 =>
        cases hc2 : checked_sub st.pool.total_bond_amount amount with
        | error e =>
          simp only [_decrease_bond_amount, hl, if_neg hb, hc1, hc2,
            andThen_ok, andThen_error, before_share_change_bond_amount] at hd
          exact Except.noConfusion hd
        | ok total1 =>
          cases hc3 : checked_sub (snapCurrent (balSnapOf st staker))
              amount with
          | error e =>
            simp only [_decrease_bond_amount, hl, if_neg hb, hc1, hc2, hc3,
              andThen_ok, andThen_error, before_share_change_bond_amount] at hd
            exact Except.noConfusion hd
          | ok bv =>
            cases hc4 : checked_sub (snapCurrent st.totalSnap) amount with
            | error e =>
              simp only [_decrease_bond_amount, hl, if_neg hb, hc1, hc2, hc3,
                hc4, andThen_ok, andThen_error,
                before_share_change_bond_amount] at hd
              exact Except.noConfusion hd
            | ok tv =>
              simp only [_decrease_bond_amount, hl, if_neg hb, hc1, hc2, hc3,
                hc4, andThen_ok, before_share_change_bond_amount,
                Except.ok.injEq, Prod.mk.injEq] at hd
              obtain ⟨h1, he1⟩ := checked_sub_ok hc1
              obtain ⟨h2, he2⟩ := checked_sub_ok hc2
              obtain ⟨h3, he3⟩ := checked_sub_ok hc3
              obtain ⟨h4, he4⟩ := checked_sub_ok hc4
              subst he1 he2 he3 he4
              exact ⟨r0, rfl, Nat.not_lt.mp hb, h2, h3, h4, hd.1.symm,
                hd.2.symm⟩

/-- The state after the sweep plus the bond decrease of a successful
nonzero `unbond`, before any new lock entry is inserted. -/
def decreasedState (st : State) (env : Env) (staker : Addr) (amount : Nat)
    (r0 : RewardInfo) : State :=
  { st with
    locks := (setA st.locks staker
      ((lockOf st staker).filter (fun l => env.time < l.unlock_time))),
    pool := { st.pool with
      total_bond_amount := st.pool.total_bond_amount - amount },
    rewards := (setA st.rewards staker
      (afterCleanup (afterDecrease st.pool.reward_index r0 amount))),
    balSnap := (setA st.balSnap staker
      (snapUpdate (balSnapOf st staker) env.height
        (snapCurrent (balSnapOf st staker) - amount))),
    totalSnap := snapUpdate st.totalSnap env.height
      (snapCurrent st.totalSnap - amount) }

/-- The result a successful nonzero `unbond` must produce, as a function
of the pre-state and the account's reward record. -/
def unbondExpected (st : State) (env : Env) (staker token : Addr)
    (amount : Nat) (r0 : RewardInfo) : State × Response :=
  let w := _withdraw_lock st env staker token
  let st2 := decreasedState st env staker amount r0
  let assets := cleanupAssets (afterDecrease st.pool.reward_index r0 amount)
  let msgs := w.2.messages ++ assets.map (fun a => Msg.assetTransfer a staker)
  match st.unbonding_period with
  | some period =>
    ({ st2 with locks := (setA st2.locks staker
        (insert_lock_info (lockOf st2 staker)
          { amount := amount, unlock_time := env.time + period })) },
     { messages := msgs,
       attributes := unbondingAttrs staker token amount (env.time + period) ++
         w.2.attributes })
  | none =>
    (st2,
     { messages := msgs ++ [Msg.transfer token staker amount],
       attributes := (_unbond staker token amount).attributes ++
         w.2.attributes })

theorem unbond_ok_spec {st : State} {env : Env} {staker token : Addr}
    {amount : Nat} {p : State × Response}
    (h0 : amount ≠ 0)
    (hok : unbond st env staker token amount = .ok p) :
    ∃ r0, lookupA st.rewards staker = some r0 ∧
      amount ≤ r0.bond_amount ∧
      amount ≤ st.pool.total_bond_amount ∧
      p = unbondExpected st env staker token amount r0 := by
  cases hdm : _decrease_bond_amount (_withdraw_lock st env staker token).1
      env.height staker amount with
  | error e =>
    simp only [unbond, if_neg h0, hdm, andThen_error] at hok
    exact Except.noConfusion hok
  | ok q =>
    obtain ⟨st2, reward_assets⟩ := q
    obtain ⟨r0x, hlx, hbx, htx, hsx, hs2x, hst2, hass⟩ := decrease_ok_spec hdm
    simp only [withdraw_fst, balSnapOf] at hlx htx hsx hs2x hst2 hass
    subst hst2
    subst hass
    refine ⟨r0x, hlx, hbx, htx, ?_⟩
    simp only [unbond, if_neg h0, hdm, andThen_ok] at hok
    split at hok
    · rename_i period heqp
      cases hok
      simp [unbondExpected, decreasedState, heqp, balSnapOf, lockOf,
        withdraw_fst]
    · rename_i heqp
      cases hok
      simp [unbondExpected, decreasedState, heqp, _unbond, balSnapOf, lockOf,
        withdraw_fst]

/-- `unbond` with `amount = 0` returns right after the sweep. -/
theorem unbond_zero_eq (st : State) (env : Env) (staker token : Addr) :
    unbond st env staker token 0 = .ok (_withdraw_lock st env staker token) :=
  rfl

theorem getD_bond (rs : List (Addr × RewardInfo)) (k : Addr) :
    ((lookupA rs k).map RewardInfo.bond_amount).getD 0
      = ((lookupA rs k).getD defaultRewardInfo).bond_amount := by
  cases lookupA rs k <;> simp [defaultRewardInfo]

theorem filter_not_matured (L : List LockInfo) (now : Nat) :
    L.filter (fun l => now < l.unlock_time)
      = L.filter (fun l => !(l.unlock_time ≤ now)) := by
  apply List.filter_congr
  intro l _
  simp [← decide_not, Nat.not_le]

/-! ## Concrete states for witnesses and counterexamples -/

/-- A staker record: bond 100, index snapshot 0, nothing pending. -/
def rAlice : RewardInfo :=
  { native_token := false, index := 0, bond_amount := 100, pending_reward := 0,
    pending_withdraw := [] }

/-- A pool state with one staker (`rAlice`), pool index 2, two lock
entries (one matured at time 1000, one not), and no unbonding period. -/
def stBase : State :=
  { pool := { staking_token := "lp", total_bond_amount := 100,
              reward_index := 2 },
    rewards := [("alice", rAlice)],
    stakers := ["alice"],
    locks := [("alice", [{ amount := 30, unlock_time := 50 },
                         { amount := 20, unlock_time := 2000 }])],
    balSnap := [("alice", [(1, 100)])],
    totalSnap := [(1, 100)],
    unbonding_period := none }

/-- `stBase` with a configured unbonding period of 0 and no locks. -/
def stZero : State := { stBase with unbonding_period := some 0, locks := [] }

/-- `stBase` with a configured unbonding period of 1000. -/
def stLock : State := { stBase with unbonding_period := some 1000 }

/-- A staker fully unwound by a 50-unbond, with a held-back withdrawal. -/
def rBob : RewardInfo :=
  { native_token := false, index := 2, bond_amount := 50, pending_reward := 0,
    pending_withdraw := [{ info := "atom", amount := 7 }] }

/-- A pool state for the `pending_withdraw` cleanup scenario. -/
def stBob : State :=
  { pool := { staking_token := "lp", total_bond_amount := 50,
              reward_index := 2 },
    rewards := [("bob", rBob)],
    stakers := ["bob"],
    locks := [],
    balSnap := [("bob", [(1, 50)])],
    totalSnap := [(1, 50)],
    unbonding_period := none }

/-- The block environment used by the concrete scenarios. -/
def envA : Env := { height := 5, time := 1000 }

/-- The pair returned by a successful `bond` (identity pre-state and an
empty response on error). -/
def bondResultPair (st : State) (env : Env) (staker_addr : Addr)
    (staking_token : Addr) (amount : Nat) : State × Response :=
  match bond st env staker_addr staking_token amount with
  | .ok p => p
  | .error _ => (st, { messages := [], attributes := [] })

theorem bondOf_eq (st : State) (staker : Addr) :
    bondOf st staker
      = ((lookupA st.rewards staker).getD defaultRewardInfo).bond_amount :=
  getD_bond st.rewards staker

/-- Conservation is preserved by one committed operation. -/
theorem consistent_execOp (st : State) (eo : Env × Op)
    (hc : Consistent st) : Consistent (execOp st eo) := by
  obtain ⟨env, op⟩ := eo
  cases op with
  | opBond staker token amount =>
    simp only [execOp, applyOp]
    cases hi : _increase_bond_amount st env.height staker amount with
    | error e => simpa [bond, hi] using hc
    | ok st1 =>
      simp only [bond, hi, andThen_ok, commit_ok]
      have hspec := increase_ok_spec hi
      subst hspec
      unfold Consistent at hc ⊢
      have hbs := bondSum_setA st.rewards staker
        (afterIncrease st.pool.reward_index
          ((lookupA st.rewards staker).getD defaultRewardInfo) amount)
      rw [getD_bond] at hbs
      simp only [afterIncrease_bond_amount] at hbs
      simp only []
      omega
  | opUnbond staker token amount =>
    simp only [execOp, applyOp]
    cases hu : unbond st env staker token amount with
    | error e => simpa using hc
    | ok p =>
      simp only [commit_ok]
      by_cases h0 : amount = 0
      · subst h0
        rw [unbond_zero_eq] at hu
        cases hu
        simpa [Consistent, withdraw_fst] using hc
      · obtain ⟨r0, hl, hb, ht, hp⟩ := unbond_ok_spec h0 hu
        subst hp
        have hle := lookupA_le_bondSum st.rewards staker r0 hl
        have hbs := bondSum_setA st.rewards staker
          (afterCleanup (afterDecrease st.pool.reward_index r0 amount))
        simp only [hl, Option.map_some', Option.getD_some,
          afterCleanup_bond_amount, afterDecrease_bond_amount] at hbs
        unfold Consistent at hc ⊢
        cases hper : st.unbonding_period with
        | some period =>
          simp only [unbondExpected, decreasedState, hper]
          omega
        | none =>
          simp only [unbondExpected, decreasedState, hper]
          omega

/-! ## Claims -/

/-- C1: an Unbond whose amount exceeds the account's bonded amount fails
with the InsufficientBond error ("Cannot unbond more than bond amount"),
and under the transactional commit semantics the post-call state equals
the pre-call state — lock queue, reward record, pool record, and both
snapshot histories included, even though the matured-lock sweep ran
before the check. -/
theorem C1_insufficient_bond_fails_atomically
    (st : State) (env : Env) (staker token : Addr) (amount : Nat)
    (r0 : RewardInfo) (hr : lookupA st.rewards staker = some r0)
    (hlt : r0.bond_amount < amount) :
    unbond st env staker token amount =
      .error "Cannot unbond more than bond amount" ∧
    execUnbond st env staker token amount = st := by
  have h0 : amount ≠ 0 := by omega
  have hrw : lookupA ((_withdraw_lock st env staker token).1).rewards staker
      = some r0 := by
    simp [withdraw_fst, hr]
  have hdec : _decrease_bond_amount (_withdraw_lock st env staker token).1
      env.height staker amount
      = .error "Cannot unbond more than bond amount" := by
    simp only [_decrease_bond_amount, hrw, if_pos hlt]
  have he : unbond st env staker token amount =
      .error "Cannot unbond more than bond amount" := by
    simp only [unbond, if_neg h0, hdec, andThen_error]
  exact ⟨he, by simp [execUnbond, he]⟩

theorem C1_insufficient_bond_fails_atomically_witness :
    unbond stBase envA "alice" "lp" 150 =
      .error "Cannot unbond more than bond amount" ∧
    execUnbond stBase envA "alice" "lp" 150 = stBase :=
  C1_insufficient_bond_fails_atomically stBase envA "alice" "lp" 150 rAlice
    (by decide) (by decide)

/-- C5: an Unbond with amount 0 is exactly the matured-lock sweep: it
always succeeds with the sweep's state and response, and the sweep leaves
the pool record, reward records, snapshot histories and staker set
untouched — so no settlement, no bond change, no snapshot append, and no
InsufficientBond or missing-record error is possible. -/
theorem C5_zero_amount_is_pure_sweep
    (st : State) (env : Env) (staker token : Addr) :
    unbond st env staker token 0 = .ok (_withdraw_lock st env staker token) ∧
    (_withdraw_lock st env staker token).1.pool = st.pool ∧
    (_withdraw_lock st env staker token).1.rewards = st.rewards ∧
    (_withdraw_lock st env staker token).1.balSnap = st.balSnap ∧
    (_withdraw_lock st env staker token).1.totalSnap = st.totalSnap ∧
    (_withdraw_lock st env staker token).1.stakers = st.stakers := by
  refine ⟨unbond_zero_eq st env staker token, ?_, ?_, ?_, ?_, ?_⟩ <;>
    simp [withdraw_fst]

/-- C6: a sweep at time `now` removes exactly the matured entries: no
entry with `unlock_time > now` is touched (all survivors are unmatured),
every matured entry present at call time is removed and counted exactly
once (the matured entries plus the survivors are a permutation of the
original queue), and the accumulated amount is the sum of the matured
entries' amounts. -/
theorem C6_sweep_is_exact
    (st : State) (env : Env) (staker token : Addr) :
    lockOf (_withdraw_lock st env staker token).1 staker =
      (lockOf st staker).filter (fun l => env.time < l.unlock_time) ∧
    (∀ l, l ∈ lockOf (_withdraw_lock st env staker token).1 staker →
      env.time < l.unlock_time) ∧
    List.Perm
      ((lockOf st staker).filter (fun l => l.unlock_time ≤ env.time) ++
        lockOf (_withdraw_lock st env staker token).1 staker)
      (lockOf st staker) ∧
    (remove_and_accumulate_lock_info (lockOf st staker) env.time).2 =
      (((lockOf st staker).filter
        (fun l => l.unlock_time ≤ env.time)).map LockInfo.amount).sum := by
  have h1 : lockOf (_withdraw_lock st env staker token).1 staker =
      (lockOf st staker).filter (fun l => env.time < l.unlock_time) := by
    simp [lockOf, withdraw_fst, lookupA_setA_self]
  refine ⟨h1, ?_, ?_, rfl⟩
  · intro l hl
    rw [h1] at hl
    have := List.of_mem_filter hl
    exact of_decide_eq_true this
  · rw [h1, filter_not_matured]
    exact List.filter_append_perm
      (fun l : LockInfo => decide (l.unlock_time ≤ env.time)) _

theorem C6_sweep_is_exact_witness :
    envA.time <
      LockInfo.unlock_time { amount := 20, unlock_time := 2000 } :=
  (C6_sweep_is_exact stBase envA "alice" "lp").2.1
    { amount := 20, unlock_time := 2000 } (by decide)

/-- C10: the matured-lock sweep changes only the lock queue — pool,
reward records, both snapshot histories, the staker set and the
configured period are untouched — and its response is empty when nothing
matured, otherwise exactly the `_unbond` response: one transfer of the
aggregated amount with the four "unbond" attributes. -/
theorem C10_sweep_frame_and_response
    (st : State) (env : Env) (staker token : Addr) :
    (_withdraw_lock st env staker token).1.pool = st.pool ∧
    (_withdraw_lock st env staker token).1.rewards = st.rewards ∧
    (_withdraw_lock st env staker token).1.balSnap = st.balSnap ∧
    (_withdraw_lock st env staker token).1.totalSnap = st.totalSnap ∧
    (_withdraw_lock st env staker token).1.stakers = st.stakers ∧
    (_withdraw_lock st env staker token).1.unbonding_period =
      st.unbonding_period ∧
    ((remove_and_accumulate_lock_info (lockOf st staker) env.time).2 = 0 →
      (_withdraw_lock st env staker token).2 =
        { messages := [], attributes := [] }) ∧
    ((remove_and_accumulate_lock_info (lockOf st staker) env.time).2 ≠ 0 →
      (_withdraw_lock st env staker token).2 =
        _unbond staker token
          (remove_and_accumulate_lock_info (lockOf st staker) env.time).2) := by
  refine ⟨by simp [withdraw_fst], by simp [withdraw_fst],
    by simp [withdraw_fst], by simp [withdraw_fst], by simp [withdraw_fst],
    by simp [withdraw_fst], ?_, ?_⟩
  · intro h
    rw [withdraw_snd, if_pos h]
  · intro h
    rw [withdraw_snd, if_neg h]

/-- C2(counterexample): with a configured unbonding period equal to 0,
the code still takes the lock branch (`if let Ok(period)` tests presence,
not positivity): Unbond(40) at time 1000 creates LockEntry
`{40, unlock_time = 1000}` and emits no release message, contradicting
the claim that a period equal to 0 releases immediately with no
LockEntry. -/
theorem C2_zero_period_still_locks_counterexample :
    stZero.unbonding_period = some 0 ∧
    unbond stZero envA "alice" "lp" 40 =
      .ok (execUnbond stZero envA "alice" "lp" 40,
           unbondResult stZero envA "alice" "lp" 40) ∧
    lockOf (execUnbond stZero envA "alice" "lp" 40) "alice" =
      [{ amount := 40, unlock_time := 1000 }] ∧
    (unbondResult stZero envA "alice" "lp" 40).messages = [] := by
  decide

/-- C2(amended): for every successful Unbond with amount > 0 the branch
is on the presence of a configured unbonding period: when a period is
configured (any value, 0 included) a LockEntry
`{amount, unlock_time = now + period}` is appended to the queue and no
release for `amount` is added to the messages; when no period is
configured no LockEntry is created and exactly one immediate release of
`amount` to the account is appended. -/
theorem C2_branch_on_period_presence
    (st : State) (env : Env) (staker token : Addr) (amount : Nat)
    (p : State × Response) (r0 : RewardInfo)
    (hr : lookupA st.rewards staker = some r0)
    (h0 : amount ≠ 0)
    (hok : unbond st env staker token amount = .ok p) :
    (∀ period, st.unbonding_period = some period →
      lockOf p.1 staker =
        (lockOf st staker).filter (fun l => env.time < l.unlock_time) ++
          [{ amount := amount, unlock_time := env.time + period }] ∧
      p.2.messages =
        (_withdraw_lock st env staker token).2.messages ++
          (cleanupAssets (afterDecrease st.pool.reward_index r0 amount)).map
            (fun a => Msg.assetTransfer a staker)) ∧
    (st.unbonding_period = none →
      lockOf p.1 staker =
        (lockOf st staker).filter (fun l => env.time < l.unlock_time) ∧
      p.2.messages =
        (_withdraw_lock st env staker token).2.messages ++
          (cleanupAssets (afterDecrease st.pool.reward_index r0 amount)).map
            (fun a => Msg.assetTransfer a staker) ++
          [Msg.transfer token staker amount]) := by
  obtain ⟨r0x, hlx, hbx, htx, hp⟩ := unbond_ok_spec h0 hok
  rw [hr] at hlx
  cases hlx
  subst hp
  constructor
  · intro period hper
    constructor
    · simp [unbondExpected, decreasedState, hper, lockOf, lookupA_setA_self,
        insert_lock_info]
    · simp [unbondExpected, hper]
  · intro hper
    constructor
    · simp [unbondExpected, decreasedState, hper, lockOf, lookupA_setA_self]
    · simp [unbondExpected, hper]

theorem C2_branch_on_period_presence_witness :
    lockOf (execUnbond stLock envA "alice" "lp" 40) "alice" =
      (lockOf stLock "alice").filter (fun l => envA.time < l.unlock_time) ++
        [{ amount := 40, unlock_time := envA.time + 1000 }] ∧
    (unbondResult stLock envA "alice" "lp" 40).messages =
      (_withdraw_lock stLock envA "alice" "lp").2.messages ++
        (cleanupAssets (afterDecrease stLock.pool.reward_index rAlice 40)).map
          (fun a => Msg.assetTransfer a "alice") :=
  (C2_branch_on_period_presence stLock envA "alice" "lp" 40
    (execUnbond stLock envA "alice" "lp" 40,
     unbondResult stLock envA "alice" "lp" 40) rAlice
    (by decide) (by decide) (by decide)).1 1000 (by decide)

/-- C7: in a successful nonzero Unbond, the `pending_withdraw` assets are
mapped to release messages (one per held asset, placed right after the
sweep's messages) and the stored list is cleared exactly when, after
settlement and the bond decrease, `pending_reward` and `bond_amount` are
both zero; otherwise the stored `pending_withdraw` is unchanged and no
such release is emitted. -/
theorem C7_pending_withdraw_iff_fully_unwound
    (st : State) (env : Env) (staker token : Addr) (amount : Nat)
    (p : State × Response) (r0 : RewardInfo)
    (hr : lookupA st.rewards staker = some r0)
    (h0 : amount ≠ 0)
    (hok : unbond st env staker token amount = .ok p) :
    ((afterDecrease st.pool.reward_index r0 amount).pending_reward = 0 ∧
        (afterDecrease st.pool.reward_index r0 amount).bond_amount = 0 →
      pwOf p.1 staker = [] ∧
      p.2.messages =
        (_withdraw_lock st env staker token).2.messages ++
          r0.pending_withdraw.map (fun a => Msg.assetTransfer a staker) ++
          (match st.unbonding_period with
           | some _ => ([] : List Msg)
           | none => [Msg.transfer token staker amount])) ∧
    (¬((afterDecrease st.pool.reward_index r0 amount).pending_reward = 0 ∧
        (afterDecrease st.pool.reward_index r0 amount).bond_amount = 0) →
      pwOf p.1 staker = r0.pending_withdraw ∧
      p.2.messages =
        (_withdraw_lock st env staker token).2.messages ++
          (match st.unbonding_period with
           | some _ => ([] : List Msg)
           | none => [Msg.transfer token staker amount])) := by
  obtain ⟨r0x, hlx, hbx, htx, hp⟩ := unbond_ok_spec h0 hok
  rw [hr] at hlx
  cases hlx
  subst hp
  constructor
  · intro hc
    have ha := afterCleanup_of_pos hc
    have hb2 := cleanupAssets_of_pos hc
    cases hper : st.unbonding_period with
    | some period =>
      refine ⟨?_, ?_⟩
      · simp [unbondExpected, decreasedState, hper, pwOf, lookupA_setA_self,
          ha]
      · simp [unbondExpected, hper, hb2]
    | none =>
      refine ⟨?_, ?_⟩
      · simp [unbondExpected, decreasedState, hper, pwOf, lookupA_setA_self,
          ha]
      · simp [unbondExpected, hper, hb2]
  · intro hc
    have ha := afterCleanup_of_neg hc
    have hb2 := cleanupAssets_of_neg hc
    cases hper : st.unbonding_period with
    | some period =>
      refine ⟨?_, ?_⟩
      · simp [unbondExpected, decreasedState, hper, pwOf, lookupA_setA_self,
          ha]
      · simp [unbondExpected, hper, hb2]
    | none =>
      refine ⟨?_, ?_⟩
      · simp [unbondExpected, decreasedState, hper, pwOf, lookupA_setA_self,
          ha]
      · simp [unbondExpected, hper, hb2]

theorem C7_pending_withdraw_iff_fully_unwound_witness :
    pwOf (execUnbond stBob envA "bob" "lp" 50) "bob" = [] ∧
    (unbondResult stBob envA "bob" "lp" 50).messages =
      (_withdraw_lock stBob envA "bob" "lp").2.messages ++
        rBob.pending_withdraw.map (fun a => Msg.assetTransfer a "bob") ++
        (match stBob.unbonding_period with
         | some _ => ([] : List Msg)
         | none => [Msg.transfer "lp" "bob" 50]) :=
  (C7_pending_withdraw_iff_fully_unwound stBob envA "bob" "lp" 50
    (execUnbond stBob envA "bob" "lp" 50,
     unbondResult stBob envA "bob" "lp" 50) rBob
    (by decide) (by decide) (by decide)).1 (by decide)

/-- C8(counterexample): at a state with a matured lock (sweep amount 30)
and no unbonding period, Unbond(40) emits its event attributes with the
step-6 "unbond" attributes (amount "40") first and the sweep's attributes
(amount "30") last — not sweep-first as the claim states for attribute
order (the message order is sweep-first). -/
theorem C8_attribute_order_counterexample :
    (unbondResult stBase envA "alice" "lp" 40).attributes =
      (_unbond "alice" "lp" 40).attributes ++
        (_unbond "alice" "lp" 30).attributes ∧
    (_withdraw_lock stBase envA "alice" "lp").2.attributes =
      (_unbond "alice" "lp" 30).attributes ∧
    (unbondResult stBase envA "alice" "lp" 40).attributes ≠
      (_withdraw_lock stBase envA "alice" "lp").2.attributes ++
        (_unbond "alice" "lp" 40).attributes := by
  decide

/-- C8(amended): in a successful nonzero Unbond the release messages
appear in the order (i) matured-lock sweep release, (ii) pending_withdraw
releases, (iii) the immediate release when no period is configured; the
event attributes however appear with the step-6 attributes (new-lock
"unbonding" or immediate "unbond") first, followed by the sweep's
attributes (the pending_withdraw release emits no attributes). -/
theorem C8_message_order_and_attribute_order
    (st : State) (env : Env) (staker token : Addr) (amount : Nat)
    (p : State × Response) (r0 : RewardInfo)
    (hr : lookupA st.rewards staker = some r0)
    (h0 : amount ≠ 0)
    (hok : unbond st env staker token amount = .ok p) :
    p.2.messages =
      (_withdraw_lock st env staker token).2.messages ++
        (cleanupAssets (afterDecrease st.pool.reward_index r0 amount)).map
          (fun a => Msg.assetTransfer a staker) ++
        (match st.unbonding_period with
         | some _ => ([] : List Msg)
         | none => [Msg.transfer token staker amount]) ∧
    p.2.attributes =
      (match st.unbonding_period with
       | some period => unbondingAttrs staker token amount (env.time + period)
       | none => (_unbond staker token amount).attributes) ++
        (_withdraw_lock st env staker token).2.attributes := by
  obtain ⟨r0x, hlx, hbx, htx, hp⟩ := unbond_ok_spec h0 hok
  rw [hr] at hlx
  cases hlx
  subst hp
  cases hper : st.unbonding_period with
  | some period =>
    exact ⟨by simp [unbondExpected, hper], by simp [unbondExpected, hper]⟩
  | none =>
    exact ⟨by simp [unbondExpected, hper], by simp [unbondExpected, hper]⟩

theorem C8_message_order_and_attribute_order_witness :
    (unbondResult stBase envA "alice" "lp" 40).messages =
      (_withdraw_lock stBase envA "alice" "lp").2.messages ++
        (cleanupAssets (afterDecrease stBase.pool.reward_index rAlice 40)).map
          (fun a => Msg.assetTransfer a "alice") ++
        (match stBase.unbonding_period with
         | some _ => ([] : List Msg)
         | none => [Msg.transfer "lp" "alice" 40]) ∧
    (unbondResult stBase envA "alice" "lp" 40).attributes =
      (match stBase.unbonding_period with
       | some period => unbondingAttrs "alice" "lp" 40 (envA.time + period)
       | none => (_unbond "alice" "lp" 40).attributes) ++
        (_withdraw_lock stBase envA "alice" "lp").2.attributes :=
  C8_message_order_and_attribute_order stBase envA "alice" "lp" 40
    (execUnbond stBase envA "alice" "lp" 40,
     unbondResult stBase envA "alice" "lp" 40) rAlice
    (by decide) (by decide) (by decide)

/-- C3: starting from a state where the pool total equals the sum of all
accounts' bonded amounts, every sequence of committed Bond/Unbond
operations (failed operations revert) preserves that equality: each
successful operation adds or subtracts the same amount on both sides. -/
theorem C3_total_equals_bond_sum
    (st : State) (ops : List (Env × Op)) (hc : Consistent st) :
    Consistent (runOps st ops) := by
  induction ops generalizing st with
  | nil => exact hc
  | cons eo rest ih => exact ih (execOp st eo) (consistent_execOp st eo hc)

theorem C3_total_equals_bond_sum_witness :
    Consistent (runOps stBase
      [(envA, .opBond "alice" "lp" 7), (envA, .opUnbond "alice" "lp" 40),
       (envA, .opUnbond "carol" "lp" 9),
       (envA, .opUnbond "alice" "lp" 500)]) :=
  C3_total_equals_bond_sum stBase
    [(envA, .opBond "alice" "lp" 7), (envA, .opUnbond "alice" "lp" 40),
     (envA, .opUnbond "carol" "lp" 9), (envA, .opUnbond "alice" "lp" 500)]
    (by unfold Consistent; decide)

/-- C4: reward settlement is performed on the pre-change bonded amount,
for both the Bond (increase) and the nonzero Unbond (decrease) path: the
stored pending_reward afterwards is the old pending_reward plus
(pool index − account snapshot index) × old bond_amount, while the stored
bond_amount becomes old ± amount. -/
theorem C4_settlement_before_share_change
    (st : State) (env : Env) (staker token : Addr) (amount : Nat)
    (r0 : RewardInfo) (hr : lookupA st.rewards staker = some r0) :
    (∀ p, bond st env staker token amount = .ok p →
      pendingOf p.1 staker =
        r0.pending_reward +
          (st.pool.reward_index - r0.index) * (r0.bond_amount : ℚ) ∧
      bondOf p.1 staker = r0.bond_amount + amount) ∧
    (∀ p, amount ≠ 0 → unbond st env staker token amount = .ok p →
      pendingOf p.1 staker =
        r0.pending_reward +
          (st.pool.reward_index - r0.index) * (r0.bond_amount : ℚ) ∧
      bondOf p.1 staker = r0.bond_amount - amount) := by
  constructor
  · intro p hok
    cases hi : _increase_bond_amount st env.height staker amount with
    | error e => simp [bond, hi] at hok
    | ok st1 =>
      simp only [bond, hi, andThen_ok, Except.ok.injEq] at hok
      subst hok
      have hspec := increase_ok_spec hi
      subst hspec
      constructor
      · simp [pendingOf, lookupA_setA_self, afterIncrease, hr]
      · simp [bondOf, lookupA_setA_self, hr]
  · intro p h0 hok
    obtain ⟨r0x, hlx, hbx, htx, hp⟩ := unbond_ok_spec h0 hok
    rw [hr] at hlx
    cases hlx
    subst hp
    cases hper : st.unbonding_period with
    | some period =>
      constructor
      · simp [unbondExpected, decreasedState, hper, pendingOf,
          lookupA_setA_self]
      · simp [unbondExpected, decreasedState, hper, bondOf,
          lookupA_setA_self]
    | none =>
      constructor
      · simp [unbondExpected, decreasedState, hper, pendingOf,
          lookupA_setA_self]
      · simp [unbondExpected, decreasedState, hper, bondOf,
          lookupA_setA_self]

theorem C4_settlement_before_share_change_witness :
    pendingOf (execUnbond stBase envA "alice" "lp" 50) "alice" = 200 ∧
    bondOf (execUnbond stBase envA "alice" "lp" 50) "alice" = 50 := by
  have h := (C4_settlement_before_share_change stBase envA "alice" "lp" 50
    rAlice (by decide)).2
    (execUnbond stBase envA "alice" "lp" 50,
     unbondResult stBase envA "alice" "lp" 50) (by decide) (by decide)
  exact ⟨h.1.trans (by decide), h.2.trans (by decide)⟩

/-- C9: if the latest balance snapshot of an account equals its stored
bond_amount and the latest total snapshot equals the stored pool total,
then after a successful Bond or nonzero Unbond by that account both
equalities still hold, and any other account's snapshot history and
reward record are untouched — the snapshot histories and the live
records never diverge. -/
theorem C9_snapshots_track_live_records
    (st : State) (env : Env) (staker token : Addr) (amount : Nat)
    (hb : snapCurrent (balSnapOf st staker) = bondOf st staker)
    (ht : snapCurrent st.totalSnap = st.pool.total_bond_amount) :
    (∀ p, bond st env staker token amount = .ok p →
      snapCurrent (balSnapOf p.1 staker) = bondOf p.1 staker ∧
      snapCurrent p.1.totalSnap = p.1.pool.total_bond_amount ∧
      (∀ other, other ≠ staker →
        balSnapOf p.1 other = balSnapOf st other ∧
        lookupA p.1.rewards other = lookupA st.rewards other)) ∧
    (∀ p, amount ≠ 0 → unbond st env staker token amount = .ok p →
      snapCurrent (balSnapOf p.1 staker) = bondOf p.1 staker ∧
      snapCurrent p.1.totalSnap = p.1.pool.total_bond_amount ∧
      (∀ other, other ≠ staker →
        balSnapOf p.1 other = balSnapOf st other ∧
        lookupA p.1.rewards other = lookupA st.rewards other)) := by
  rw [bondOf_eq] at hb
  simp only [balSnapOf] at hb
  constructor
  · intro p hok
    cases hi : _increase_bond_amount st env.height staker amount with
    | error e => simp [bond, hi] at hok
    | ok st1 =>
      simp only [bond, hi, andThen_ok, Except.ok.injEq] at hok
      subst hok
      have hspec := increase_ok_spec hi
      subst hspec
      refine ⟨?_, ?_, ?_⟩
      · simp [balSnapOf, bondOf_eq, lookupA_setA_self, hb]
      · simp [ht]
      · intro other hne
        constructor
        · simp [balSnapOf, lookupA_setA_ne _ _ _ _ hne]
        · simp [lookupA_setA_ne _ _ _ _ hne]
  · intro p h0 hok
    obtain ⟨r0, hl, hbx, htx, hp⟩ := unbond_ok_spec h0 hok
    subst hp
    rw [hl] at hb
    simp only [Option.getD_some] at hb
    cases hper : st.unbonding_period with
    | some period =>
      refine ⟨?_, ?_, ?_⟩
      · simp [unbondExpected, decreasedState, hper, balSnapOf, bondOf_eq,
          lookupA_setA_self, hb]
      · simp [unbondExpected, decreasedState, hper, ht]
      · intro other hne
        constructor
        · simp [unbondExpected, decreasedState, hper, balSnapOf,
            lookupA_setA_ne _ _ _ _ hne]
        · simp [unbondExpected, decreasedState, hper,
            lookupA_setA_ne _ _ _ _ hne]
    | none =>
      refine ⟨?_, ?_, ?_⟩
      · simp [unbondExpected, decreasedState, hper, balSnapOf, bondOf_eq,
          lookupA_setA_self, hb]
      · simp [unbondExpected, decreasedState, hper, ht]
      · intro other hne
        constructor
        · simp [unbondExpected, decreasedState, hper, balSnapOf,
            lookupA_setA_ne _ _ _ _ hne]
        · simp [unbondExpected, decreasedState, hper,
            lookupA_setA_ne _ _ _ _ hne]

theorem C9_snapshots_track_live_records_witness :
    snapCurrent
        (balSnapOf (bondResultPair stBase envA "alice" "lp" 7).1 "alice") =
      bondOf (bondResultPair stBase envA "alice" "lp" 7).1 "alice" ∧
    snapCurrent (bondResultPair stBase envA "alice" "lp" 7).1.totalSnap =
      (bondResultPair stBase envA "alice" "lp" 7).1.pool.total_bond_amount := by
  have h := (C9_snapshots_track_live_records stBase envA "alice" "lp" 7
    (by decide) (by decide)).1
    (bondResultPair stBase envA "alice" "lp" 7) (by decide)
  exact ⟨h.1, h.2.1⟩

theorem C10_sweep_frame_and_response_witness :
    (remove_and_accumulate_lock_info (lockOf stBase "alice") envA.time).2
      ≠ 0 ∧
    (_withdraw_lock stBase envA "alice" "lp").2 =
      _unbond "alice" "lp"
        (remove_and_accumulate_lock_info (lockOf stBase "alice")
          envA.time).2 :=
  ⟨by decide,
   (C10_sweep_frame_and_response stBase envA "alice" "lp").2.2.2.2.2.2.2
     (by decide)⟩

end CwStaking
